import Mathlib

/-
Verification of the response-normalization and AI-enhancement core of the
airweave-poc search CLI.

The development shallowly embeds the TypeScript source:
  * the JSON data model (values produced by JSON.parse) as an inductive type,
    with JavaScript truthiness, String() and Number() coercions modelled as
    executable functions;
  * AirweaveClient.transformResponse / makeSearchRequest / search as pure
    functions over an explicit upstream-outcome parameter (network I/O and
    wall-clock time are inputs, thrown exceptions are Except values);
  * AIService.enhanceQuery / summarizeResults / reRankResults as pure
    functions over an explicit model-outcome parameter, including the
    regex-based JSON extraction from free-form model text and a JSON parser.

JavaScript numbers are modelled as rationals; NaN is modelled as Option.none.
-/

set_option maxHeartbeats 1000000

/-- A JSON value as produced by JSON.parse (JS objects never hold duplicate
keys; the parser below collapses duplicates with last-value-wins, matching
JSON.parse). Numbers are modelled as rationals. -/
inductive Json where
  | null : Json
  | bool : Bool → Json
  | num : ℚ → Json
  | str : String → Json
  | arr : List Json → Json
  | obj : List (String × Json) → Json

/-- JavaScript property access obj.k: a lookup on objects, undefined (none)
on every other value. Property access on null throws and is handled at the
call sites that can receive null. -/
def getField : Json → String → Option Json
  | Json.obj fields, k => List.lookup k fields
  | _, _ => none

/-- JavaScript truthiness of a JSON value: null, false, 0 and the empty
string are falsy; every array and object is truthy. -/
def jsTruthy : Json → Bool
  | Json.null => false
  | Json.bool b => b
  | Json.num q => decide (q ≠ 0)
  | Json.str s => decide (s ≠ "")
  | Json.arr _ => true
  | Json.obj _ => true

/-- The JavaScript expression `a || d` where `a` is a possibly-undefined
field value and `d` a final defined default. -/
def jsOrV (a : Option Json) (d : Json) : Json :=
  match a with
  | some v => if jsTruthy v then v else d
  | none => d

/-- The JavaScript expression `a || b` where both sides may be undefined. -/
def jsOrO (a b : Option Json) : Option Json :=
  match a with
  | some v => if jsTruthy v then some v else b
  | none => b

/-- Decimal digits of a natural number, most significant first (fuel-driven;
fuel n + 1 always suffices). -/
def natToDigitList : Nat → Nat → List Char
  | 0, _ => []
  | fuel + 1, n =>
      if n < 10 then [Nat.digitChar n]
      else natToDigitList fuel (n / 10) ++ [Nat.digitChar (n % 10)]

/-- Decimal string of a natural number (JS String() on a nonnegative
integer). -/
def natToString (n : Nat) : String :=
  String.mk (natToDigitList (n + 1) n)

/-- Numeric value of a list of decimal digits. -/
def digitsVal (ds : List Char) : Nat :=
  ds.foldl (fun a c => a * 10 + (c.toNat - 48)) 0

/-- Fractional decimal digits of rem/den (fuel-bounded; JSON-originating
rationals terminate well within the fuel). -/
def fracDigitList : Nat → Nat → Nat → List Char
  | 0, _, _ => []
  | fuel + 1, rem, den =>
      if rem = 0 then []
      else Nat.digitChar (rem * 10 / den) :: fracDigitList fuel (rem * 10 % den) den

/-- Decimal rendering of a rational, modelling JS number-to-string for the
values arising from JSON input (sign, integer part, fractional digits). -/
def ratToString (q : ℚ) : String :=
  let sign : String := if q.num < 0 then "-" else ""
  let n : Nat := q.num.natAbs
  let ip : Nat := n / q.den
  let rem : Nat := n % q.den
  if rem = 0 then sign ++ natToString ip
  else sign ++ natToString ip ++ "." ++ String.mk (fracDigitList 50 rem q.den)

/-- One escaped character of a JSON string literal, as JSON.stringify emits. -/
def escapeChar (c : Char) : List Char :=
  if c == '"' then ['\\', '"']
  else if c == '\\' then ['\\', '\\']
  else if c == '\n' then ['\\', 'n']
  else if c == '\r' then ['\\', 'r']
  else if c == '\t' then ['\\', 't']
  else if c.toNat == 8 then ['\\', 'b']
  else if c.toNat == 12 then ['\\', 'f']
  else if c.toNat < 32 then
    ['\\', 'u', '0', '0', Nat.digitChar (c.toNat / 16), Nat.digitChar (c.toNat % 16)]
  else [c]

/-- A quoted, escaped JSON string literal. -/
def quoteJson (s : String) : String :=
  String.mk ('"' :: s.data.flatMap escapeChar ++ ['"'])

mutual

/-- JSON.stringify on a parsed JSON value. -/
def jsonStringify : Json → String
  | Json.null => "null"
  | Json.bool true => "true"
  | Json.bool false => "false"
  | Json.num q => ratToString q
  | Json.str s => quoteJson s
  | Json.arr xs => "[" ++ stringifyElems xs ++ "]"
  | Json.obj fs => "\x7b" ++ stringifyFields fs ++ "\x7d"

/-- Comma-separated serialized elements of a JSON array. -/
def stringifyElems : List Json → String
  | [] => ""
  | [x] => jsonStringify x
  | x :: y :: xs => jsonStringify x ++ "," ++ stringifyElems (y :: xs)

/-- Comma-separated serialized members of a JSON object. -/
def stringifyFields : List (String × Json) → String
  | [] => ""
  | [(k, v)] => quoteJson k ++ ":" ++ jsonStringify v
  | (k, v) :: f :: fs => quoteJson k ++ ":" ++ jsonStringify v ++ "," ++ stringifyFields (f :: fs)

end

mutual

/-- The JavaScript String() coercion on a JSON value: arrays join their
elements with commas (null elements become empty), plain objects display
as the object placeholder. -/
def jsToString : Json → String
  | Json.null => "null"
  | Json.bool true => "true"
  | Json.bool false => "false"
  | Json.num q => ratToString q
  | Json.str s => s
  | Json.arr xs => jsArrElems xs
  | Json.obj _ => "[object Object]"

/-- Array.prototype.toString: elements joined by commas, null rendered
as the empty string. -/
def jsArrElems : List Json → String
  | [] => ""
  | [Json.null] => ""
  | [x] => jsToString x
  | Json.null :: y :: xs => "," ++ jsArrElems (y :: xs)
  | x :: y :: xs => jsToString x ++ "," ++ jsArrElems (y :: xs)

end

/-- Whitespace trimmed by String.prototype.trim (common ASCII subset). -/
def jsWsChar (c : Char) : Bool :=
  c == ' ' || c == '\t' || c == '\n' || c == '\r' || c.toNat == 11 || c.toNat == 12

/-- String.prototype.trim modelled on the character list. -/
def jsTrimList (cs : List Char) : List Char :=
  ((cs.dropWhile jsWsChar).reverse.dropWhile jsWsChar).reverse

/-- String.prototype.trim. -/
def jsTrim (s : String) : String :=
  String.mk (jsTrimList s.data)

/-- The JavaScript Number() coercion on a string (decimal literals with
optional sign, fraction and exponent; NaN is none; hexadecimal and Infinity
literals are out of scope of the model). -/
def strToNumber (s : String) : Option ℚ :=
  let cs := jsTrimList s.data
  if cs.isEmpty then some 0
  else
    let signed : ℚ × List Char :=
      match cs with
      | '+' :: r => (1, r)
      | '-' :: r => (-1, r)
      | r => (1, r)
    let sign := signed.1
    let cs1 := signed.2
    let ds := cs1.takeWhile (fun c => c.isDigit)
    let cs2 := cs1.drop ds.length
    let fracked : List Char × List Char :=
      match cs2 with
      | '.' :: r => (r.takeWhile (fun c => c.isDigit), r.drop (r.takeWhile (fun c => c.isDigit)).length)
      | r => ([], r)
    let fds := fracked.1
    let cs3 := fracked.2
    if ds.isEmpty && fds.isEmpty then none
    else
      let mant : ℚ := (digitsVal ds : ℚ) + (digitsVal fds : ℚ) / ((10 : ℚ) ^ fds.length)
      match cs3 with
      | [] => some (sign * mant)
      | 'e' :: r => strToNumberExp sign mant r
      | 'E' :: r => strToNumberExp sign mant r
      | _ => none
where
  /-- Exponent part of a numeric string literal. -/
  strToNumberExp (sign mant : ℚ) (r : List Char) : Option ℚ :=
    let esigned : Bool × List Char :=
      match r with
      | '+' :: rr => (true, rr)
      | '-' :: rr => (false, rr)
      | rr => (true, rr)
    let eds := esigned.2.takeWhile (fun c => c.isDigit)
    let r2 := esigned.2.drop eds.length
    if eds.isEmpty || !r2.isEmpty then none
    else
      let e := digitsVal eds
      some (if esigned.1 then sign * mant * (10 : ℚ) ^ e else sign * mant / (10 : ℚ) ^ e)

/-- The JavaScript Number() coercion on a JSON value; none models NaN.
Arrays coerce through their joined string form. -/
def jsToNumber : Json → Option ℚ
  | Json.null => some 0
  | Json.bool b => some (if b then 1 else 0)
  | Json.num q => some q
  | Json.str s => strToNumber s
  | Json.arr xs => strToNumber (jsArrElems xs)
  | Json.obj _ => none

/- ===== AirweaveClient: types (src/unnamed/part_000, types section) ===== -/

/-- Search mode enum from the type definitions. -/
inductive SearchType where
  | hybrid : SearchType
  | semantic : SearchType
  | keyword : SearchType
deriving DecidableEq

/-- SearchOptions from the type definitions. -/
structure SearchOptions where
  query : String
  searchType : Option SearchType
  limit : Option Nat

/-- SearchResult: the canonical result record. Fields typed as string in
TypeScript may in fact hold arbitrary JSON values after the unchecked casts
in transformResponse, so optional fields keep their raw JSON value; score
is an Option rational, none modelling NaN. -/
structure SearchResult where
  id : String
  content : String
  source : String
  sourceType : String
  score : Option ℚ
  metadata : Option Json
  url : Option Json
  title : Option Json
  createdAt : Option Json
  updatedAt : Option Json

instance : Inhabited SearchResult :=
  ⟨⟨"", "", "", "", none, none, none, none, none, none⟩⟩

/-- SearchResponse returned by AirweaveClient.search. -/
structure SearchResponse where
  success : Bool
  query : String
  searchType : SearchType
  results : List SearchResult
  totalResults : Nat
  processingTime : Option Nat
  error : Option String

/-- The credential state of the client (apiKey and collectionId strings;
the base URL does not influence any verified behavior). -/
structure ClientConfig where
  apiKey : String
  collectionId : String

/-- A thrown JavaScript value: an Error carrying a message, or any other
thrown value (whose message is unavailable). -/
inductive JsError where
  | err : String → JsError
  | raw : JsError

/-- The conversion performed at the catch site in search:
error instanceof Error ? error.message : a fixed unknown-error text. -/
def JsError.toMessage : JsError → String
  | JsError.err m => m
  | JsError.raw => "Unknown error occurred"

/-- One outbound search call outcome, supplied as an explicit parameter:
the fetch promise rejects, or the server answers with a non-success status
and a body text, or with a success status whose body fails to parse as
JSON, or with a parsed JSON body. -/
inductive UpstreamOutcome where
  | transportFailure : JsError → UpstreamOutcome
  | httpError : Nat → String → UpstreamOutcome
  | bodyNotJson : String → UpstreamOutcome
  | success : Json → UpstreamOutcome

/- ===== AirweaveClient: response normalization (part_000 lines 144-203) ===== -/

/-- Array.isArray(obj.k) probe of transformResponse: the field value when it
is an array, none otherwise. -/
def arrayField (fields : List (String × Json)) (k : String) : Option (List Json) :=
  match List.lookup k fields with
  | some (Json.arr xs) => some xs
  | _ => none

/-- The raw-result extraction of transformResponse: a bare array is used
as-is; an object is probed for the first array-valued field among results,
data, items, hits, documents, in source order; anything else (including
null, primitives and unrecognized objects) yields zero results. Total:
never raises. -/
def extractRawResults (data : Json) : List Json :=
  match data with
  | Json.arr xs => xs
  | Json.obj fields =>
      match arrayField fields "results" with
      | some xs => xs
      | none =>
          match arrayField fields "data" with
          | some xs => xs
          | none =>
              match arrayField fields "items" with
              | some xs => xs
              | none =>
                  match arrayField fields "hits" with
                  | some xs => xs
                  | none =>
                      match arrayField fields "documents" with
                      | some xs => xs
                      | none => []
  | _ => []

/-- The per-element record builder of transformResponse (lines 173-200),
on a non-null element: each output field is a JavaScript truthiness
fallback chain over candidate source fields. -/
def mapItemPure (item : Json) (index : Nat) : SearchResult :=
  let g := getField item
  { id := jsToString (jsOrV (g "id") (jsOrV (g "_id") (jsOrV (g "entity_id") (Json.num (index : ℚ)))))
    content := jsToString (jsOrV (g "content") (jsOrV (g "text") (jsOrV (g "body")
      (jsOrV (g "document") (jsOrV (g "page_content") (jsOrV (g "chunk")
        (jsOrV (g "data") (Json.str (jsonStringify item)))))))))
    source := jsToString (jsOrV (g "source") (jsOrV (g "source_name")
      (jsOrV (g "collection") (Json.str "notion"))))
    sourceType := jsToString (jsOrV (g "source_type") (jsOrV (g "type") (Json.str "notion")))
    score := jsToNumber (jsOrV (g "score") (jsOrV (g "relevance_score")
      (jsOrV (g "_score") (jsOrV (g "similarity") (Json.num 1)))))
    metadata := g "metadata"
    url := g "url"
    title := jsOrO (g "title") (g "name")
    createdAt := jsOrO (g "created_at") (g "createdAt")
    updatedAt := jsOrO (g "updated_at") (g "updatedAt") }

/-- One element of the map callback: property access on a null element
throws a TypeError (modelled as Except.error), any other element produces
its record. -/
def mapItem (item : Json) (index : Nat) : Except String SearchResult :=
  match item with
  | Json.null => Except.error "Cannot read properties of null"
  | _ => Except.ok (mapItemPure item index)

/-- The indexed map of transformResponse: elements are processed left to
right and the first thrown TypeError aborts the whole map. -/
def mapItems : List Json → Nat → Except String (List SearchResult)
  | [], _ => Except.ok []
  | item :: rest, i =>
      match mapItem item i with
      | Except.error e => Except.error e
      | Except.ok r =>
          match mapItems rest (i + 1) with
          | Except.error e => Except.error e
          | Except.ok rs => Except.ok (r :: rs)

/-- transformResponse: extraction followed by the element map. -/
def transformResponse (data : Json) : Except String (List SearchResult) :=
  mapItems (extractRawResults data) 0

/- ===== AirweaveClient: search (part_000 lines 41-99, 104-139) ===== -/

/-- isConfigured: both credential strings truthy, i.e. non-empty. -/
def AirweaveClient.isConfigured (cfg : ClientConfig) : Bool :=
  !(cfg.apiKey == "") && !(cfg.collectionId == "")

/-- The error text of the not-configured early return in search. -/
def notConfiguredMsg : String :=
  "Airweave client not configured. Please set API key and collection ID."

/-- makeSearchRequest as a function of the upstream outcome: a rejected
fetch re-throws, a non-success status throws the formatted upstream error
(status interpolated in decimal), an unparsable body throws, and a parsed
body goes through transformResponse (whose TypeError also propagates). -/
def AirweaveClient.makeSearchRequest (outcome : UpstreamOutcome) :
    Except JsError (List SearchResult) :=
  match outcome with
  | UpstreamOutcome.transportFailure e => Except.error e
  | UpstreamOutcome.httpError status body =>
      Except.error (JsError.err ("Airweave API error (" ++ natToString status ++ "): " ++ body))
  | UpstreamOutcome.bodyNotJson m => Except.error (JsError.err m)
  | UpstreamOutcome.success data =>
      match transformResponse data with
      | Except.ok rs => Except.ok rs
      | Except.error m => Except.error (JsError.err m)

/-- search: not-configured early return, then the try/catch around
makeSearchRequest. elapsed is the measured wall-clock duration, an input
of the model. The || fallbacks on response.results and its length are
identities because makeSearchRequest always returns a well-formed list. -/
def AirweaveClient.search (cfg : ClientConfig) (options : SearchOptions)
    (outcome : UpstreamOutcome) (elapsed : Nat) : SearchResponse :=
  if AirweaveClient.isConfigured cfg = false then
    { success := false
      query := options.query
      searchType := options.searchType.getD SearchType.hybrid
      results := []
      totalResults := 0
      processingTime := none
      error := some notConfiguredMsg }
  else
    match AirweaveClient.makeSearchRequest outcome with
    | Except.ok results =>
        { success := true
          query := options.query
          searchType := options.searchType.getD SearchType.hybrid
          results := results
          totalResults := results.length
          processingTime := some elapsed
          error := none }
    | Except.error e =>
        { success := false
          query := options.query
          searchType := options.searchType.getD SearchType.hybrid
          results := []
          totalResults := 0
          processingTime := none
          error := some e.toMessage }

/- ===== A JSON parser modelling JSON.parse (used by the AIService) ===== -/

/-- JSON whitespace (exactly space, tab, newline, carriage return). -/
def jsonWs (c : Char) : Bool :=
  c == ' ' || c == '\t' || c == '\n' || c == '\r'

/-- Skip JSON whitespace. -/
def skipWs (cs : List Char) : List Char :=
  cs.dropWhile jsonWs

/-- Value of a hexadecimal digit. -/
def hexVal (c : Char) : Option Nat :=
  if c.isDigit then some (c.toNat - 48)
  else if 'a' ≤ c && c ≤ 'f' then some (c.toNat - 87)
  else if 'A' ≤ c && c ≤ 'F' then some (c.toNat - 55)
  else none

/-- Body of a JSON string literal after the opening quote: the decoded
characters and the remainder after the closing quote (fuel-driven). -/
def parseStringBody : Nat → List Char → Option (List Char × List Char)
  | 0, _ => none
  | _ + 1, [] => none
  | _ + 1, '"' :: rest => some ([], rest)
  | fuel + 1, '\\' :: rest =>
      let esc : Option (Char × List Char) :=
        match rest with
        | [] => none
        | e :: rest2 =>
            if e == '"' then some ('"', rest2)
            else if e == '\\' then some ('\\', rest2)
            else if e == '/' then some ('/', rest2)
            else if e == 'b' then some (Char.ofNat 8, rest2)
            else if e == 'f' then some (Char.ofNat 12, rest2)
            else if e == 'n' then some ('\n', rest2)
            else if e == 'r' then some ('\r', rest2)
            else if e == 't' then some ('\t', rest2)
            else if e == 'u' then
              match rest2 with
              | h1 :: h2 :: h3 :: h4 :: rest3 =>
                  match hexVal h1, hexVal h2, hexVal h3, hexVal h4 with
                  | some a, some b, some c, some d =>
                      some (Char.ofNat (((a * 16 + b) * 16 + c) * 16 + d), rest3)
                  | _, _, _, _ => none
              | _ => none
            else none
      match esc with
      | some (c, r) =>
          match parseStringBody fuel r with
          | some (chars, rest4) => some (c :: chars, rest4)
          | none => none
      | none => none
  | fuel + 1, c :: rest =>
      if c.toNat < 32 then none
      else
        match parseStringBody fuel rest with
        | some (chars, r) => some (c :: chars, r)
        | none => none

/-- A JSON number literal: optional minus, integer part without leading
zeros, optional fraction, optional exponent. -/
def parseNumberLit (cs : List Char) : Option (ℚ × List Char) :=
  let signed : Bool × List Char :=
    match cs with
    | '-' :: r => (true, r)
    | r => (false, r)
  let cs1 := signed.2
  let ds := cs1.takeWhile (fun c => c.isDigit)
  if ds.isEmpty then none
  else if 1 < ds.length && ds.headD '0' == '0' then none
  else
    let cs2 := cs1.drop ds.length
    let fracked : Option (List Char × List Char) :=
      match cs2 with
      | '.' :: r =>
          let fs := r.takeWhile (fun c => c.isDigit)
          if fs.isEmpty then none else some (fs, r.drop fs.length)
      | r => some ([], r)
    match fracked with
    | none => none
    | some (fds, cs3) =>
        let mant : ℚ := (digitsVal ds : ℚ) + (digitsVal fds : ℚ) / ((10 : ℚ) ^ fds.length)
        let mant : ℚ := if signed.1 then -mant else mant
        match cs3 with
        | 'e' :: r => parseNumberExp mant r
        | 'E' :: r => parseNumberExp mant r
        | r => some (mant, r)
where
  /-- Exponent part of a JSON number literal. -/
  parseNumberExp (mant : ℚ) (r : List Char) : Option (ℚ × List Char) :=
    let esigned : Bool × List Char :=
      match r with
      | '+' :: rr => (true, rr)
      | '-' :: rr => (false, rr)
      | rr => (true, rr)
    let eds := esigned.2.takeWhile (fun c => c.isDigit)
    if eds.isEmpty then none
    else
      let e := digitsVal eds
      let v : ℚ := if esigned.1 then mant * (10 : ℚ) ^ e else mant / (10 : ℚ) ^ e
      some (v, esigned.2.drop eds.length)

/-- Object member insertion with last-value-wins on duplicate keys and
first-insertion ordering, as JSON.parse builds JS objects. -/
def insertField (fs : List (String × Json)) (k : String) (v : Json) : List (String × Json) :=
  if fs.any (fun p => p.1 == k) then fs.map (fun p => if p.1 == k then (k, v) else p)
  else fs ++ [(k, v)]

mutual

/-- One JSON value from the input (fuel-driven recursive descent). Returns
the value and the unconsumed remainder. -/
def parseValue : Nat → List Char → Option (Json × List Char)
  | 0, _ => none
  | fuel + 1, cs =>
      match skipWs cs with
      | 'n' :: 'u' :: 'l' :: 'l' :: r => some (Json.null, r)
      | 't' :: 'r' :: 'u' :: 'e' :: r => some (Json.bool true, r)
      | 'f' :: 'a' :: 'l' :: 's' :: 'e' :: r => some (Json.bool false, r)
      | '"' :: r =>
          match parseStringBody (r.length + 1) r with
          | some (chars, rest) => some (Json.str (String.mk chars), rest)
          | none => none
      | '[' :: r =>
          (match skipWs r with
           | ']' :: r2 => some (Json.arr [], r2)
           | _ => parseElems fuel (skipWs r) [])
      | '\x7b' :: r =>
          (match skipWs r with
           | '\x7d' :: r2 => some (Json.obj [], r2)
           | _ => parseMembers fuel (skipWs r) [])
      | other =>
          match parseNumberLit other with
          | some (q, rest) => some (Json.num q, rest)
          | none => none

/-- Elements of a non-empty JSON array, accumulating in order. -/
def parseElems : Nat → List Char → List Json → Option (Json × List Char)
  | 0, _, _ => none
  | fuel + 1, cs, acc =>
      match parseValue fuel cs with
      | none => none
      | some (v, rest) =>
          match skipWs rest with
          | ',' :: r2 => parseElems fuel (skipWs r2) (acc ++ [v])
          | ']' :: r2 => some (Json.arr (acc ++ [v]), r2)
          | _ => none

/-- Members of a non-empty JSON object, accumulating with insertField. -/
def parseMembers : Nat → List Char → List (String × Json) → Option (Json × List Char)
  | 0, _, _ => none
  | fuel + 1, cs, acc =>
      match skipWs cs with
      | '"' :: r =>
          match parseStringBody (r.length + 1) r with
          | none => none
          | some (kchars, rest) =>
              match skipWs rest with
              | ':' :: r2 =>
                  match parseValue fuel (skipWs r2) with
                  | none => none
                  | some (v, rest2) =>
                      match skipWs rest2 with
                      | ',' :: r3 => parseMembers fuel (skipWs r3) (insertField acc (String.mk kchars) v)
                      | '\x7d' :: r3 => some (Json.obj (insertField acc (String.mk kchars) v), r3)
                      | _ => none
              | _ => none
      | _ => none

end

/-- JSON.parse: the whole input must be one JSON value surrounded only by
whitespace; any violation throws (none). -/
def jsonParse (s : String) : Option Json :=
  match parseValue (2 * s.data.length + 4) s.data with
  | some (v, rest) => if (skipWs rest).isEmpty then some v else none
  | none => none

/- ===== AIService (src/unnamed/part_002) ===== -/

/-- LLM provider selection. -/
inductive LLMProvider where
  | google : LLMProvider
  | openai : LLMProvider
  | anthropic : LLMProvider

/-- The provider configuration read by AIService.isConfigured: the active
provider and the per-provider credential (undefined or a string). -/
structure AIConfig where
  provider : LLMProvider
  googleApiKey : Option String
  openaiApiKey : Option String
  anthropicApiKey : Option String

/-- Truthiness of an optional credential string. -/
def keyTruthy : Option String → Bool
  | some k => !(k == "")
  | none => false

/-- AIService.isConfigured: the active provider has a truthy credential. -/
def AIService.isConfigured (cfg : AIConfig) : Bool :=
  match cfg.provider with
  | LLMProvider.google => keyTruthy cfg.googleApiKey
  | LLMProvider.openai => keyTruthy cfg.openaiApiKey
  | LLMProvider.anthropic => keyTruthy cfg.anthropicApiKey

/-- One generateText call outcome, supplied as an explicit parameter: the
call rejects with a thrown value, or resolves with the model response
text. -/
inductive ModelOutcome where
  | failure : JsError → ModelOutcome
  | text : String → ModelOutcome

/-- QueryEnhancement; enhancedQuery, keywords and intent hold the raw JSON
values taken from the parsed model response (the TypeScript casts do not
check them). -/
structure QueryEnhancement where
  originalQuery : String
  enhancedQuery : Json
  keywords : Json
  intent : Json

/-- ResultSummary, with the same raw-JSON field convention. -/
structure ResultSummary where
  summary : Json
  keyPoints : Json
  relevantTopics : Json

/-- The identity enhancement returned when the provider is unconfigured or
any step of enhanceQuery fails. -/
def identityEnhancement (q : String) : QueryEnhancement :=
  { originalQuery := q
    enhancedQuery := Json.str q
    keywords := Json.arr []
    intent := Json.str "search" }

/-- Split a character list at the first character satisfying p: the prefix
of non-matching characters and the remainder starting at the match. -/
def splitAtFirst (p : Char → Bool) : List Char → Option (List Char × List Char)
  | [] => none
  | c :: r =>
      if p c then some ([], c :: r)
      else
        match splitAtFirst p r with
        | some (a, t) => some (c :: a, t)
        | none => none

/-- The match of the greedy regex over braces used by enhanceQuery and
summarizeResults: the span from the first opening brace to the last
closing brace, when the latter comes after the former. -/
def braceSpan (s : String) : Option String :=
  match splitAtFirst (fun c => c == '\x7b') s.data with
  | none => none
  | some (_, t) =>
      match splitAtFirst (fun c => c == '\x7d') t.reverse with
      | none => none
      | some (_, trev) => some (String.mk trev.reverse)

/-- enhanceQuery as a function of the configuration and the model call
outcome: unconfigured returns the identity enhancement without any call;
otherwise the trimmed response is scanned with the greedy brace regex and
parsed as JSON, every failure is caught and returns the identity
enhancement, and a parsed object fills the fields through || fallbacks. -/
def AIService.enhanceQuery (cfg : AIConfig) (userQuery : String)
    (outcome : ModelOutcome) : QueryEnhancement :=
  if AIService.isConfigured cfg = false then identityEnhancement userQuery
  else
    match outcome with
    | ModelOutcome.failure _ => identityEnhancement userQuery
    | ModelOutcome.text t =>
        match braceSpan (jsTrim t) with
        | none => identityEnhancement userQuery
        | some span =>
            match jsonParse span with
            | none => identityEnhancement userQuery
            | some parsed =>
                { originalQuery := userQuery
                  enhancedQuery := jsOrV (getField parsed "enhanced_query") (Json.str userQuery)
                  keywords := jsOrV (getField parsed "keywords") (Json.arr [])
                  intent := jsOrV (getField parsed "intent") (Json.str "search") }

/-- The placeholder summary for an unconfigured provider or empty results. -/
def noResultsSummary : ResultSummary :=
  { summary := Json.str "No results to summarize."
    keyPoints := Json.arr []
    relevantTopics := Json.arr [] }

/-- The placeholder summary returned from the catch block. -/
def failedSummary : ResultSummary :=
  { summary := Json.str "Failed to generate summary."
    keyPoints := Json.arr []
    relevantTopics := Json.arr [] }

/-- summarizeResults as a function of the configuration, the results and
the model call outcome: unconfigured or empty results short-circuit to the
no-results placeholder; every failure of the call, the brace scan or the
JSON parse is caught and returns the failed placeholder; a parsed object
fills the fields through || fallbacks. -/
def AIService.summarizeResults (cfg : AIConfig) (results : List SearchResult)
    (originalQuery : String) (outcome : ModelOutcome) : ResultSummary :=
  if AIService.isConfigured cfg = false || results.isEmpty then noResultsSummary
  else
    match outcome with
    | ModelOutcome.failure _ => failedSummary
    | ModelOutcome.text t =>
        match braceSpan (jsTrim t) with
        | none => failedSummary
        | some span =>
            match jsonParse span with
            | none => failedSummary
            | some parsed =>
                { summary := jsOrV (getField parsed "summary") (Json.str "Unable to generate summary.")
                  keyPoints := jsOrV (getField parsed "key_points") (Json.arr [])
                  relevantTopics := jsOrV (getField parsed "relevant_topics") (Json.arr []) }

/- ===== AIService.reRankResults (part_002 lines 205-264) ===== -/

/-- The character class of the index-array regex: digits, whitespace and
commas. -/
def arrayClassChar (c : Char) : Bool :=
  c.isDigit || jsWsChar c || c == ','

/-- The first match of the index-array regex in the text: an opening
bracket, one or more class characters, a closing bracket. The scan tries
each start position left to right; since the closing bracket is not a
class character, the greedy run either ends exactly at a closing bracket
or the start position fails. -/
def scanArrayMatch : List Char → Option (List Char)
  | [] => none
  | '[' :: rest =>
      let run := rest.takeWhile arrayClassChar
      if run.isEmpty then scanArrayMatch rest
      else
        match rest.drop run.length with
        | ']' :: _ => some ('[' :: run ++ [']'])
        | _ => scanArrayMatch rest
  | _ :: rest => scanArrayMatch rest

/-- The first index-array regex match of a string. -/
def firstArrayMatch (s : String) : Option String :=
  (scanArrayMatch s.data).map String.mk

/-- JSON.parse of the matched span, read as a list of integers. The span
contains only digits, whitespace and commas, so a successful parse is
always a flat array of nonnegative integers; any other JSON shape cannot
occur and is mapped to the parse-failure fallback. -/
def parseIndexList (span : String) : Option (List Int) :=
  match jsonParse span with
  | some (Json.arr xs) =>
      xs.mapM (fun x =>
        match x with
        | Json.num q => if q.den = 1 then some q.num else none
        | _ => none)
  | _ => none

/-- The reordering loop of reRankResults: walk the validated indices,
skip indices already used, and push results[idx] while recording idx in
the used set (the used set is modelled as the list of insertions). -/
def reorderLoop (results : List SearchResult) :
    List Int → List SearchResult → List Nat → List SearchResult × List Nat
  | [], reordered, used => (reordered, used)
  | idx :: rest, reordered, used =>
      if idx.toNat ∈ used then reorderLoop results rest reordered used
      else reorderLoop results rest (reordered ++ [results.getD idx.toNat default]) (used ++ [idx.toNat])

/-- The final loop of reRankResults: append, in original order, every
input position never used. -/
def appendRemaining (results : List SearchResult) (used : List Nat) : List SearchResult :=
  ((List.range results.length).filter (fun i => decide (i ∉ used))).map
    (fun i => results.getD i default)

/-- reRankResults as a function of the configuration, the input results
and the model call outcome: unconfigured or fewer than two results return
the input; a rejected call, a text without an index-array match, a failed
JSON.parse of the match, or an all-out-of-range index list return the
input; otherwise the validated indices drive the reordering loop and the
unused positions are appended in original order. -/
def AIService.reRankResults (cfg : AIConfig) (results : List SearchResult)
    (query : String) (outcome : ModelOutcome) : List SearchResult :=
  if AIService.isConfigured cfg = false || results.length ≤ 1 then results
  else
    match outcome with
    | ModelOutcome.failure _ => results
    | ModelOutcome.text t =>
        match firstArrayMatch (jsTrim t) with
        | none => results
        | some span =>
            match parseIndexList span with
            | none => results
            | some indices =>
                let validIndices := indices.filter
                  (fun i => decide (0 ≤ i) && decide (i < (results.length : Int)))
                if validIndices.isEmpty then results
                else
                  let st := reorderLoop results validIndices [] []
                  st.1 ++ appendRemaining results st.2

/- ===== Theorems: the search gateway (C2, C6, C9, C10) ===== -/

/-- t occurs as a substring of s. -/
def strContains (s t : String) : Prop :=
  ∃ a b : String, s = a ++ t ++ b

theorem string_append_assoc3 (a b c : String) : a ++ b ++ c = a ++ (b ++ c) := by
  apply String.ext
  simp [String.data_append, List.append_assoc]

/-- C2: for every query, transport failures and non-success HTTP statuses
never raise past search: the response has success false, empty results and
an error message; and a 500 status on a configured client yields an error
message containing the substring 500. -/
theorem search_upstream_failure (cfg : ClientConfig) (options : SearchOptions)
    (elapsed : Nat) :
    (∀ e : JsError,
      (AirweaveClient.search cfg options (UpstreamOutcome.transportFailure e) elapsed).success = false ∧
      (AirweaveClient.search cfg options (UpstreamOutcome.transportFailure e) elapsed).results = [] ∧
      (AirweaveClient.search cfg options (UpstreamOutcome.transportFailure e) elapsed).error.isSome = true) ∧
    (∀ status : Nat, ∀ body : String,
      (AirweaveClient.search cfg options (UpstreamOutcome.httpError status body) elapsed).success = false ∧
      (AirweaveClient.search cfg options (UpstreamOutcome.httpError status body) elapsed).results = [] ∧
      (AirweaveClient.search cfg options (UpstreamOutcome.httpError status body) elapsed).error.isSome = true) ∧
    (AirweaveClient.isConfigured cfg = true → ∀ body : String,
      ∃ msg : String,
        (AirweaveClient.search cfg options (UpstreamOutcome.httpError 500 body) elapsed).error = some msg ∧
        strContains msg "500") := by
  refine ⟨?_, ?_, ?_⟩
  · intro e
    unfold AirweaveClient.search
    by_cases h : AirweaveClient.isConfigured cfg
    · simp [h, AirweaveClient.makeSearchRequest]
    · simp [eq_false_of_ne_true h]
  · intro status body
    unfold AirweaveClient.search
    by_cases h : AirweaveClient.isConfigured cfg
    · simp [h, AirweaveClient.makeSearchRequest]
    · simp [eq_false_of_ne_true h]
  · intro h body
    unfold AirweaveClient.search
    simp only [h]
    refine ⟨"Airweave API error (" ++ natToString 500 ++ "): " ++ body, by simp [AirweaveClient.makeSearchRequest, JsError.toMessage], ?_⟩
    refine ⟨"Airweave API error (", "): " ++ body, ?_⟩
    have h500 : natToString 500 = "500" := by rfl
    rw [h500]
    apply String.ext
    simp only [String.data_append, ← List.append_assoc]

/-- Closed witness for the 500 conjunct of the C2 theorem. -/
theorem search_upstream_failure_witness :
    ∃ msg : String,
      (AirweaveClient.search ⟨"key", "coll"⟩ ⟨"q", none, none⟩
        (UpstreamOutcome.httpError 500 "oops") 7).error = some msg ∧
      strContains msg "500" :=
  (search_upstream_failure ⟨"key", "coll"⟩ ⟨"q", none, none⟩ 7).2.2 (by rfl) "oops"

/-- C6: with an empty credential or an empty collection identifier, search
fails immediately with the not-configured error and performs no network
I/O: the result does not depend on the upstream outcome or the elapsed
time at all. -/
theorem search_not_configured (cfg : ClientConfig) (options : SearchOptions)
    (o1 o2 : UpstreamOutcome) (t1 t2 : Nat)
    (h : AirweaveClient.isConfigured cfg = false) :
    AirweaveClient.search cfg options o1 t1 = AirweaveClient.search cfg options o2 t2 ∧
    (AirweaveClient.search cfg options o1 t1).success = false ∧
    (AirweaveClient.search cfg options o1 t1).results = [] ∧
    (AirweaveClient.search cfg options o1 t1).error = some notConfiguredMsg := by
  unfold AirweaveClient.search
  simp [h]

/-- Closed witness for the C6 theorem: a client with an empty api key. -/
theorem search_not_configured_witness :
    AirweaveClient.search ⟨"", "coll"⟩ ⟨"q", none, none⟩
        (UpstreamOutcome.httpError 500 "x") 3 =
      AirweaveClient.search ⟨"", "coll"⟩ ⟨"q", none, none⟩
        (UpstreamOutcome.success (Json.arr [])) 9 ∧
    (AirweaveClient.search ⟨"", "coll"⟩ ⟨"q", none, none⟩
        (UpstreamOutcome.httpError 500 "x") 3).success = false ∧
    (AirweaveClient.search ⟨"", "coll"⟩ ⟨"q", none, none⟩
        (UpstreamOutcome.httpError 500 "x") 3).results = [] ∧
    (AirweaveClient.search ⟨"", "coll"⟩ ⟨"q", none, none⟩
        (UpstreamOutcome.httpError 500 "x") 3).error = some notConfiguredMsg :=
  search_not_configured ⟨"", "coll"⟩ ⟨"q", none, none⟩
    (UpstreamOutcome.httpError 500 "x") (UpstreamOutcome.success (Json.arr [])) 3 9 (by rfl)

/-- C9: the result transformation is deterministic; the only
nondeterministic input of a search invocation besides the upstream
response is the measured wall-clock time, and two invocations with the
identical query and identical upstream response agree on every field of
the response except the timing. -/
theorem search_deterministic (cfg : ClientConfig) (options : SearchOptions)
    (outcome : UpstreamOutcome) (t1 t2 : Nat) :
    (AirweaveClient.search cfg options outcome t1).results =
      (AirweaveClient.search cfg options outcome t2).results ∧
    (AirweaveClient.search cfg options outcome t1).success =
      (AirweaveClient.search cfg options outcome t2).success ∧
    (AirweaveClient.search cfg options outcome t1).totalResults =
      (AirweaveClient.search cfg options outcome t2).totalResults ∧
    (AirweaveClient.search cfg options outcome t1).error =
      (AirweaveClient.search cfg options outcome t2).error := by
  unfold AirweaveClient.search
  by_cases h : AirweaveClient.isConfigured cfg
  · simp only [h]
    cases AirweaveClient.makeSearchRequest outcome <;> simp
  · simp [eq_false_of_ne_true h]

/-- C10: every response of search satisfies the invariants: totalResults
equals the length of results; a failed response has empty results and an
error message; a successful response has no error field. -/
theorem search_response_invariants (cfg : ClientConfig) (options : SearchOptions)
    (outcome : UpstreamOutcome) (elapsed : Nat) :
    (AirweaveClient.search cfg options outcome elapsed).totalResults =
      (AirweaveClient.search cfg options outcome elapsed).results.length ∧
    ((AirweaveClient.search cfg options outcome elapsed).success = false →
      (AirweaveClient.search cfg options outcome elapsed).results = [] ∧
      (AirweaveClient.search cfg options outcome elapsed).error.isSome = true) ∧
    ((AirweaveClient.search cfg options outcome elapsed).success = true →
      (AirweaveClient.search cfg options outcome elapsed).error = none) := by
  unfold AirweaveClient.search
  by_cases h : AirweaveClient.isConfigured cfg
  · simp only [h]
    cases AirweaveClient.makeSearchRequest outcome <;> simp
  · simp [eq_false_of_ne_true h]

/-- Closed witness for the C10 theorem at a failed and a successful
concrete invocation. -/
theorem search_response_invariants_witness :
    ((AirweaveClient.search ⟨"k", "c"⟩ ⟨"q", none, none⟩
        (UpstreamOutcome.httpError 500 "x") 3).results = [] ∧
      (AirweaveClient.search ⟨"k", "c"⟩ ⟨"q", none, none⟩
        (UpstreamOutcome.httpError 500 "x") 3).error.isSome = true) ∧
    (AirweaveClient.search ⟨"k", "c"⟩ ⟨"q", none, none⟩
        (UpstreamOutcome.success (Json.arr [])) 3).error = none :=
  ⟨(search_response_invariants ⟨"k", "c"⟩ ⟨"q", none, none⟩
      (UpstreamOutcome.httpError 500 "x") 3).2.1 (by rfl),
   (search_response_invariants ⟨"k", "c"⟩ ⟨"q", none, none⟩
      (UpstreamOutcome.success (Json.arr [])) 3).2.2 (by rfl)⟩

/- ===== C3: the extraction priority order ===== -/

/-- Stated from the spec: the first array-valued field among an ordered
list of candidate names. -/
def firstArrayField (fields : List (String × Json)) : List String → Option (List Json)
  | [] => none
  | k :: ks =>
      match arrayField fields k with
      | some xs => some xs
      | none => firstArrayField fields ks

/-- C3: the raw-result extraction is total (it is a Lean function, so it
never raises) and follows the fixed priority order: a bare array is used
as-is; an object yields the first array-valued field among results, data,
items, hits, documents, in that order, and zero results when none of these
is an array; null and every primitive yield zero results. -/
theorem extraction_priority_order :
    (∀ xs : List Json, extractRawResults (Json.arr xs) = xs) ∧
    (∀ fields : List (String × Json),
      extractRawResults (Json.obj fields) =
        (firstArrayField fields ["results", "data", "items", "hits", "documents"]).getD []) ∧
    extractRawResults Json.null = [] ∧
    (∀ b : Bool, extractRawResults (Json.bool b) = []) ∧
    (∀ q : ℚ, extractRawResults (Json.num q) = []) ∧
    (∀ s : String, extractRawResults (Json.str s) = []) := by
  refine ⟨fun xs => rfl, ?_, rfl, fun b => rfl, fun q => rfl, fun s => rfl⟩
  intro fields
  cases h1 : arrayField fields "results" <;>
    cases h2 : arrayField fields "data" <;>
      cases h3 : arrayField fields "items" <;>
        cases h4 : arrayField fields "hits" <;>
          cases h5 : arrayField fields "documents" <;>
            simp [extractRawResults, firstArrayField, h1, h2, h3, h4, h5]

/- ===== C4: per-element mapping, batch abort, content fallback ===== -/

/-- Truthiness of a possibly-undefined field value. -/
def optTruthy : Option Json → Bool
  | some v => jsTruthy v
  | none => false

/-- Whether any known content-bearing field of the element is truthy. -/
def contentFieldTruthy (item : Json) : Bool :=
  optTruthy (getField item "content") || optTruthy (getField item "text") ||
  optTruthy (getField item "body") || optTruthy (getField item "document") ||
  optTruthy (getField item "page_content") || optTruthy (getField item "chunk") ||
  optTruthy (getField item "data")

theorem jsOrV_falsy (a : Option Json) (d : Json) (h : optTruthy a = false) :
    jsOrV a d = d := by
  cases a with
  | none => rfl
  | some v => simp [optTruthy] at h; simp [jsOrV, h]

theorem natToDigitList_ne_nil (fuel n : Nat) : natToDigitList (fuel + 1) n ≠ [] := by
  unfold natToDigitList
  by_cases h : n < 10 <;> simp [h]

theorem natToString_length_pos (n : Nat) : 0 < (natToString n).length := by
  have h := natToDigitList_ne_nil n n
  simp [natToString]
  exact List.length_pos.mpr h

theorem ratToString_length_pos (q : ℚ) : 0 < (ratToString q).length := by
  unfold ratToString
  by_cases h : q.num.natAbs % q.den = 0 <;>
    simp [h, String.length_append, Nat.add_pos_left, natToString_length_pos,
      Nat.add_pos_left (Nat.add_pos_right _ (natToString_length_pos _))]

theorem jsonStringify_length_pos (j : Json) : 0 < (jsonStringify j).length := by
  cases j with
  | null => decide
  | bool b => cases b <;> decide
  | num q => simpa [jsonStringify] using ratToString_length_pos q
  | str s => simp [jsonStringify, quoteJson]
  | arr xs =>
      simp [jsonStringify, String.length_append]
      exact Or.inl (Or.inl (by decide))
  | obj fs =>
      simp [jsonStringify, String.length_append]
      exact Or.inl (Or.inl (by decide))

theorem jsonStringify_ne_empty (j : Json) : jsonStringify j ≠ "" := by
  intro h
  have := jsonStringify_length_pos j
  rw [h] at this
  simp at this

/-- Every element list containing a null element makes the map throw. -/
theorem mapItems_null_aborts (items : List Json) (k : Nat)
    (h : Json.null ∈ items) : ∃ m : String, mapItems items k = Except.error m := by
  induction items generalizing k with
  | nil => cases h
  | cons it rest ih =>
      cases List.mem_cons.mp h with
      | inl hit =>
          subst hit
          exact ⟨"Cannot read properties of null", rfl⟩
      | inr hrest =>
          obtain ⟨m, hm⟩ := ih (k := k + 1) hrest
          cases hmi : mapItem it k with
          | error e => exact ⟨e, by simp [mapItems, hmi]⟩
          | ok r => exact ⟨m, by simp [mapItems, hmi, hm]⟩

/-- With no null element the map succeeds, preserves length and maps each
element independently through mapItemPure at its position. -/
theorem mapItems_ok (items : List Json) (k : Nat)
    (h : ∀ it ∈ items, it ≠ Json.null) :
    ∃ rs : List SearchResult, mapItems items k = Except.ok rs ∧
      rs.length = items.length ∧
      ∀ i : Nat, i < items.length →
        rs.getD i default = mapItemPure (items.getD i Json.null) (k + i) := by
  induction items generalizing k with
  | nil => exact ⟨[], rfl, rfl, fun i hi => absurd hi (by simp)⟩
  | cons it rest ih =>
      obtain ⟨rs', hrs', hlen, helt⟩ := ih (k := k + 1) (fun x hx => h x (List.mem_cons_of_mem _ hx))
      have hit : it ≠ Json.null := h it (List.mem_cons_self _ _)
      have hmi : mapItem it k = Except.ok (mapItemPure it k) := by
        cases it <;> simp [mapItem] <;> exact absurd rfl hit
      refine ⟨mapItemPure it k :: rs', by simp [mapItems, hmi, hrs'], by simp [hlen], ?_⟩
      intro i hi
      cases i with
      | zero => simp
      | succ j =>
          have hj : j < rest.length := by simpa using hi
          have := helt j hj
          simpa [Nat.add_assoc, Nat.add_comm 1 j] using this

/-- C4 counterexample: the claim fails on the code in two ways. A null
element does abort the whole batch (the property access throws and the
map is aborted), and a record whose content field holds an empty array
yields an empty content string (the empty array is truthy, but its string
form is empty). -/
theorem transform_malformed_counterexample :
    transformResponse (Json.arr [Json.null]) =
      Except.error "Cannot read properties of null" ∧
    (mapItemPure (Json.obj [("content", Json.arr [])]) 0).content = "" := by
  constructor <;> rfl

/-- C4 amended: each non-null element of the extracted sequence is mapped
to a record independently and does not abort the batch; a null element
throws and aborts the whole batch (the error is caught at the search
boundary); a non-null element with no truthy known content field gets the
element's full serialized form as content, which is never empty. Content
can however be empty when a truthy content field stringifies to nothing. -/
theorem transform_independent_elements (data : Json)
    (h : ∀ it ∈ extractRawResults data, it ≠ Json.null) :
    (∃ rs : List SearchResult, transformResponse data = Except.ok rs ∧
      rs.length = (extractRawResults data).length ∧
      ∀ i : Nat, i < (extractRawResults data).length →
        rs.getD i default = mapItemPure ((extractRawResults data).getD i Json.null) i) ∧
    (∀ items : List Json, ∀ k : Nat, Json.null ∈ items →
      ∃ m : String, mapItems items k = Except.error m) ∧
    (∀ item : Json, ∀ idx : Nat, contentFieldTruthy item = false →
      (mapItemPure item idx).content = jsonStringify item ∧
      (mapItemPure item idx).content ≠ "") := by
  refine ⟨?_, mapItems_null_aborts, ?_⟩
  · obtain ⟨rs, hrs, hlen, helt⟩ := mapItems_ok (extractRawResults data) 0 h
    refine ⟨rs, hrs, hlen, fun i hi => ?_⟩
    have := helt i hi
    rwa [Nat.zero_add] at this
  · intro item idx hct
    simp only [contentFieldTruthy, Bool.or_eq_false_iff] at hct
    obtain ⟨⟨⟨⟨⟨⟨h1, h2⟩, h3⟩, h4⟩, h5⟩, h6⟩, h7⟩ := hct
    have hc : (mapItemPure item idx).content = jsonStringify item := by
      simp only [mapItemPure]
      rw [jsOrV_falsy _ _ h1, jsOrV_falsy _ _ h2, jsOrV_falsy _ _ h3,
        jsOrV_falsy _ _ h4, jsOrV_falsy _ _ h5, jsOrV_falsy _ _ h6,
        jsOrV_falsy _ _ h7]
      rfl
    exact ⟨hc, by rw [hc]; exact jsonStringify_ne_empty item⟩

/-- Closed witness for the amended C4 theorem on a concrete response whose
single element has no known fields at all. -/
theorem transform_independent_elements_witness :
    (∃ rs : List SearchResult,
      transformResponse (Json.arr [Json.obj [("foo", Json.num 1)]]) = Except.ok rs ∧
      rs.length = (extractRawResults (Json.arr [Json.obj [("foo", Json.num 1)]])).length ∧
      ∀ i : Nat, i < (extractRawResults (Json.arr [Json.obj [("foo", Json.num 1)]])).length →
        rs.getD i default =
          mapItemPure ((extractRawResults (Json.arr [Json.obj [("foo", Json.num 1)]])).getD i Json.null) i) ∧
    (∀ items : List Json, ∀ k : Nat, Json.null ∈ items →
      ∃ m : String, mapItems items k = Except.error m) ∧
    (∀ item : Json, ∀ idx : Nat, contentFieldTruthy item = false →
      (mapItemPure item idx).content = jsonStringify item ∧
      (mapItemPure item idx).content ≠ "") :=
  transform_independent_elements (Json.arr [Json.obj [("foo", Json.num 1)]])
    (by intro it hit; simp [extractRawResults] at hit; subst hit; intro hcontra; cases hcontra)

/- ===== C5: relevanceScore precedence ===== -/

/-- A possibly-undefined field value filtered by truthiness. -/
def keepTruthy : Option Json → Option Json
  | some v => if jsTruthy v then some v else none
  | none => none

theorem jsOrV_keepTruthy (a : Option Json) (d : Json) :
    jsOrV a d = (keepTruthy a).getD d := by
  cases a with
  | none => rfl
  | some v =>
      by_cases t : jsTruthy v <;> simp [jsOrV, keepTruthy, t]

/-- Stated from the spec (amended): the first truthy source among the
score fields, in order, coerced with Number(); 1 when no source is
truthy. A source holding 0 is falsy and therefore skipped. -/
def relevanceScoreSpec (item : Json) : Option ℚ :=
  match ["score", "relevance_score", "_score", "similarity"].findSome?
      (fun k => keepTruthy (getField item k)) with
  | some v => jsToNumber v
  | none => some 1

/-- C5 counterexample: a record whose score field is present with value 0
yields relevanceScore 1, not 0: the JavaScript || chain treats the number
0 as falsy and falls through to the final default. -/
theorem score_zero_counterexample :
    (mapItemPure (Json.obj [("score", Json.num 0)]) 0).score = some 1 ∧
    (mapItemPure (Json.obj [("score", Json.num 0)]) 0).score ≠ some 0 := by
  constructor
  · rfl
  · intro h
    rw [show (mapItemPure (Json.obj [("score", Json.num 0)]) 0).score = some 1 from rfl] at h
    simp at h

/-- C5 amended: relevanceScore is Number() of the first truthy source
among score, relevance_score, _score, similarity, in that order and with
exact case, and 1 when none of these fields is truthy; in particular a
present score of 0 is falsy and skipped. -/
theorem relevanceScore_first_truthy (item : Json) (idx : Nat) :
    (mapItemPure item idx).score = relevanceScoreSpec item := by
  simp only [mapItemPure, relevanceScoreSpec, jsOrV_keepTruthy]
  cases c1 : keepTruthy (getField item "score") <;>
    cases c2 : keepTruthy (getField item "relevance_score") <;>
      cases c3 : keepTruthy (getField item "_score") <;>
        cases c4 : keepTruthy (getField item "similarity") <;>
          simp [List.findSome?_cons, c1, c2, c3, c4, jsToNumber]

/- ===== C7: enhanceQuery and summarizeResults fallbacks ===== -/

/-- C7 counterexample: the two summarizeResults fallbacks are not
identical. The unconfigured case returns the no-results placeholder text
while the failure case returns the failed placeholder text; both have
empty keyPoints and relevantTopics but the summary strings differ. -/
theorem summarize_fallbacks_differ :
    AIService.summarizeResults ⟨LLMProvider.google, none, none, none⟩ [default] "q"
        (ModelOutcome.text "x") = noResultsSummary ∧
    AIService.summarizeResults ⟨LLMProvider.google, some "k", none, none⟩ [default] "q"
        (ModelOutcome.failure JsError.raw) = failedSummary ∧
    noResultsSummary ≠ failedSummary := by
  refine ⟨rfl, rfl, ?_⟩
  intro h
  have h2 := congrArg ResultSummary.summary h
  simp [noResultsSummary, failedSummary] at h2

/-- C7 amended: enhanceQuery and summarizeResults are total functions of
their outcome (they never raise). enhanceQuery returns the identity
enhancement on an unconfigured provider and on every model, scan or parse
failure, identically in all these cases. summarizeResults returns a
placeholder with empty keyPoints and relevantTopics in the unconfigured
and the failure cases, but the placeholders differ in the summary string:
the no-results text when unconfigured or without results, the failed text
on any model, scan or parse failure. -/
theorem enhancement_fallbacks (cfg : AIConfig) (q : String) (e : JsError)
    (s : String) (results : List SearchResult) (outcome : ModelOutcome) :
    (AIService.isConfigured cfg = false →
      AIService.enhanceQuery cfg q outcome = identityEnhancement q) ∧
    (AIService.enhanceQuery cfg q (ModelOutcome.failure e) = identityEnhancement q) ∧
    (braceSpan (jsTrim s) = none →
      AIService.enhanceQuery cfg q (ModelOutcome.text s) = identityEnhancement q) ∧
    (∀ span : String, braceSpan (jsTrim s) = some span → jsonParse span = none →
      AIService.enhanceQuery cfg q (ModelOutcome.text s) = identityEnhancement q) ∧
    (AIService.isConfigured cfg = false →
      AIService.summarizeResults cfg results q outcome = noResultsSummary) ∧
    (results = [] → AIService.summarizeResults cfg results q outcome = noResultsSummary) ∧
    (AIService.isConfigured cfg = true → results ≠ [] →
      AIService.summarizeResults cfg results q (ModelOutcome.failure e) = failedSummary) ∧
    (AIService.isConfigured cfg = true → results ≠ [] → braceSpan (jsTrim s) = none →
      AIService.summarizeResults cfg results q (ModelOutcome.text s) = failedSummary) ∧
    (AIService.isConfigured cfg = true → results ≠ [] →
      ∀ span : String, braceSpan (jsTrim s) = some span → jsonParse span = none →
      AIService.summarizeResults cfg results q (ModelOutcome.text s) = failedSummary) ∧
    noResultsSummary.keyPoints = Json.arr [] ∧
    noResultsSummary.relevantTopics = Json.arr [] ∧
    failedSummary.keyPoints = Json.arr [] ∧
    failedSummary.relevantTopics = Json.arr [] := by
  refine ⟨?_, ?_, ?_, ?_, ?_, ?_, ?_, ?_, ?_, rfl, rfl, rfl, rfl⟩
  · intro h
    unfold AIService.enhanceQuery
    simp [h]
  · unfold AIService.enhanceQuery
    by_cases h : AIService.isConfigured cfg <;> simp [h, eq_false_of_ne_true]
  · intro h
    unfold AIService.enhanceQuery
    by_cases hc : AIService.isConfigured cfg <;> simp [h, hc, eq_false_of_ne_true]
  · intro span hspan hparse
    unfold AIService.enhanceQuery
    by_cases hc : AIService.isConfigured cfg <;> simp [hspan, hparse, hc, eq_false_of_ne_true]
  · intro h
    unfold AIService.summarizeResults
    simp [h]
  · intro h
    unfold AIService.summarizeResults
    simp [h]
  · intro hc hr
    unfold AIService.summarizeResults
    simp [hc, List.isEmpty_iff, hr]
  · intro hc hr hspan
    unfold AIService.summarizeResults
    simp [hc, List.isEmpty_iff, hr, hspan]
  · intro hc hr span hspan hparse
    unfold AIService.summarizeResults
    simp [hc, List.isEmpty_iff, hr, hspan, hparse]

/-- Closed witness for the amended C7 theorem, discharging every
hypothesis at concrete inputs: an unconfigured and a configured provider,
a response text without any brace, and a brace span that is not JSON. -/
theorem enhancement_fallbacks_witness :
    (AIService.enhanceQuery ⟨LLMProvider.google, none, none, none⟩ "q"
        (ModelOutcome.text "hi") = identityEnhancement "q") ∧
    (AIService.enhanceQuery ⟨LLMProvider.google, some "k", none, none⟩ "q"
        (ModelOutcome.text "no json here") = identityEnhancement "q") ∧
    (AIService.enhanceQuery ⟨LLMProvider.google, some "k", none, none⟩ "q"
        (ModelOutcome.text "\x7b oops \x7d") = identityEnhancement "q") ∧
    (AIService.summarizeResults ⟨LLMProvider.google, none, none, none⟩ [default] "q"
        (ModelOutcome.text "hi") = noResultsSummary) ∧
    (AIService.summarizeResults ⟨LLMProvider.google, some "k", none, none⟩ [] "q"
        (ModelOutcome.text "hi") = noResultsSummary) ∧
    (AIService.summarizeResults ⟨LLMProvider.google, some "k", none, none⟩ [default] "q"
        (ModelOutcome.failure (JsError.err "boom")) = failedSummary) ∧
    (AIService.summarizeResults ⟨LLMProvider.google, some "k", none, none⟩ [default] "q"
        (ModelOutcome.text "no json here") = failedSummary) ∧
    (AIService.summarizeResults ⟨LLMProvider.google, some "k", none, none⟩ [default] "q"
        (ModelOutcome.text "\x7b oops \x7d") = failedSummary) :=
  ⟨(enhancement_fallbacks ⟨LLMProvider.google, none, none, none⟩ "q" JsError.raw "hi" [default]
      (ModelOutcome.text "hi")).1 (by rfl),
   (enhancement_fallbacks ⟨LLMProvider.google, some "k", none, none⟩ "q" JsError.raw
      "no json here" [default] (ModelOutcome.text "no json here")).2.2.1 (by rfl),
   (enhancement_fallbacks ⟨LLMProvider.google, some "k", none, none⟩ "q" JsError.raw
      "\x7b oops \x7d" [default] (ModelOutcome.text "\x7b oops \x7d")).2.2.2.1
      "\x7b oops \x7d" (by rfl) (by rfl),
   (enhancement_fallbacks ⟨LLMProvider.google, none, none, none⟩ "q" JsError.raw "hi" [default]
      (ModelOutcome.text "hi")).2.2.2.2.1 (by rfl),
   (enhancement_fallbacks ⟨LLMProvider.google, some "k", none, none⟩ "q" JsError.raw "hi" []
      (ModelOutcome.text "hi")).2.2.2.2.2.1 (by rfl),
   (enhancement_fallbacks ⟨LLMProvider.google, some "k", none, none⟩ "q" (JsError.err "boom")
      "hi" [default] (ModelOutcome.text "hi")).2.2.2.2.2.2.1 (by rfl) (by simp),
   (enhancement_fallbacks ⟨LLMProvider.google, some "k", none, none⟩ "q" JsError.raw
      "no json here" [default] (ModelOutcome.text "no json here")).2.2.2.2.2.2.2.1
      (by rfl) (by simp) (by rfl),
   (enhancement_fallbacks ⟨LLMProvider.google, some "k", none, none⟩ "q" JsError.raw
      "\x7b oops \x7d" [default] (ModelOutcome.text "\x7b oops \x7d")).2.2.2.2.2.2.2.2.1
      (by rfl) (by simp) "\x7b oops \x7d" (by rfl) (by rfl)⟩

/- ===== C8: the greedy brace-span extraction ===== -/

theorem splitAtFirst_spec (p : Char → Bool) :
    ∀ l a t : List Char, splitAtFirst p l = some (a, t) →
      l = a ++ t ∧ (∀ c ∈ a, p c = false) ∧ ∃ c : Char, ∃ r : List Char, t = c :: r ∧ p c = true := by
  intro l
  induction l with
  | nil => intro a t h; cases h
  | cons c r ih =>
      intro a t h
      by_cases hp : p c
      · simp [splitAtFirst, hp] at h
        obtain ⟨ha, ht⟩ := h
        subst ha
        subst ht
        exact ⟨rfl, by simp, c, r, rfl, hp⟩
      · simp only [splitAtFirst, hp, Bool.false_eq_true, if_false] at h
        cases hrec : splitAtFirst p r with
        | none => rw [hrec] at h; cases h
        | some pair =>
            rw [hrec] at h
            obtain ⟨a', t'⟩ := pair
            simp at h
            obtain ⟨ha, ht⟩ := h
            obtain ⟨heq, hall, c0, r0, ht0, hc0⟩ := ih a' t' hrec
            subst ha
            subst ht
            refine ⟨by simp [heq], ?_, c0, r0, ht0, hc0⟩
            intro x hx
            cases List.mem_cons.mp hx with
            | inl hxc => subst hxc; simpa using hp
            | inr hxa => exact hall x hxa

/-- C8 counterexample: for a response text containing two balanced JSON
objects separated by other characters, the greedy regex takes the span
from the first opening brace to the last closing brace; that combined
span is not valid JSON, the parse throws, and the identity fallback is
returned instead of the first object's fields. -/
theorem brace_span_two_objects_counterexample :
    (AIService.enhanceQuery ⟨LLMProvider.google, some "k", none, none⟩ "orig"
      (ModelOutcome.text
        "\x7b\"enhanced_query\":\"A\"\x7d and \x7b\"enhanced_query\":\"B\"\x7d")).enhancedQuery =
      Json.str "orig" ∧
    Json.str "orig" ≠ Json.str "A" := by
  constructor
  · rfl
  · intro h
    injection h with h2
    exact absurd h2 (by decide)

/-- C8 amended: the JSON extraction of enhanceQuery and summarizeResults
takes the greedy span from the first opening brace to the last closing
brace of the trimmed response (every character before the span is not an
opening brace and every character after it is not a closing brace), and
parses that span: if the parse succeeds its fields are used through ||
fallbacks, otherwise the stage fallback is returned. For a text with two
balanced objects separated by other characters the combined span fails to
parse and the fallback is returned. -/
theorem brace_span_greedy (s : String) :
    (∀ span : String, braceSpan s = some span →
      ∃ a b : List Char, s.data = a ++ span.data ++ b ∧
        (∀ c ∈ a, c ≠ '\x7b') ∧ (∀ c ∈ b, c ≠ '\x7d') ∧
        span.data.head? = some '\x7b' ∧ span.data.getLast? = some '\x7d') ∧
    (∀ cfg : AIConfig, ∀ q : String, AIService.isConfigured cfg = true →
      ∀ span : String, braceSpan (jsTrim s) = some span →
        ∀ parsed : Json, jsonParse span = some parsed →
          AIService.enhanceQuery cfg q (ModelOutcome.text s) =
            { originalQuery := q
              enhancedQuery := jsOrV (getField parsed "enhanced_query") (Json.str q)
              keywords := jsOrV (getField parsed "keywords") (Json.arr [])
              intent := jsOrV (getField parsed "intent") (Json.str "search") }) ∧
    (∀ cfg : AIConfig, ∀ q : String,
      ∀ span : String, braceSpan (jsTrim s) = some span → jsonParse span = none →
        AIService.enhanceQuery cfg q (ModelOutcome.text s) = identityEnhancement q) := by
  refine ⟨?_, ?_, ?_⟩
  · intro span hspan
    unfold braceSpan at hspan
    cases h1 : splitAtFirst (fun c => c == '\x7b') s.data with
    | none => rw [h1] at hspan; cases hspan
    | some pair1 =>
        rw [h1] at hspan
        obtain ⟨a, t⟩ := pair1
        obtain ⟨heq1, hall1, c1, r1, ht1, hc1⟩ := splitAtFirst_spec _ s.data a t h1
        cases h2 : splitAtFirst (fun c => c == '\x7d') t.reverse with
        | none => simp [h2] at hspan
        | some pair2 =>
            simp only [h2] at hspan
            obtain ⟨brev, trev⟩ := pair2
            obtain ⟨heq2, hall2, c2, r2, ht2, hc2⟩ := splitAtFirst_spec _ t.reverse brev trev h2
            simp only [Option.some.injEq] at hspan
            have hspandata : span.data = trev.reverse := by
              rw [← hspan]
            have htrec : t = trev.reverse ++ brev.reverse := by
              have : t.reverse.reverse = (brev ++ trev).reverse := by rw [heq2]
              simpa [List.reverse_append] using this
            refine ⟨a, brev.reverse, ?_, ?_, ?_, ?_, ?_⟩
            · rw [heq1, htrec, hspandata, List.append_assoc]
            · intro c hc
              have := hall1 c hc
              simpa using this
            · intro c hc
              have := hall2 c (List.mem_reverse.mp hc)
              simpa using this
            · have hne : trev.reverse ≠ [] := by
                subst ht2; simp
              have hc1' : c1 = '\x7b' := by simpa using hc1
              rw [hspandata]
              cases hrv : trev.reverse with
              | nil => exact absurd hrv hne
              | cons x xs =>
                  have : x :: (xs ++ brev.reverse) = c1 :: r1 := by
                    rw [← List.cons_append, ← hrv, ← htrec, ht1]
                  have hx : x = c1 := (List.cons.injEq _ _ _ _).mp this |>.1
                  simp [hx, hc1']
            · rw [hspandata]
              subst ht2
              have hc2' : c2 = '\x7d' := by simpa using hc2
              simp [hc2']
  · intro cfg q hc span hspan parsed hparse
    unfold AIService.enhanceQuery
    simp [hc, hspan, hparse]
  · intro cfg q span hspan hparse
    unfold AIService.enhanceQuery
    by_cases hc : AIService.isConfigured cfg <;> simp [hc, hspan, hparse, eq_false_of_ne_true]

/-- Closed witness for the amended C8 theorem: the span structure on a
concrete text and the parsed-span path on a single well-formed object. -/
theorem brace_span_greedy_witness :
    (∃ a b : List Char,
      ("x\x7by\x7dz").data = a ++ ("\x7by\x7d").data ++ b ∧
        (∀ c ∈ a, c ≠ '\x7b') ∧ (∀ c ∈ b, c ≠ '\x7d') ∧
        ("\x7by\x7d").data.head? = some '\x7b' ∧ ("\x7by\x7d").data.getLast? = some '\x7d') ∧
    AIService.enhanceQuery ⟨LLMProvider.google, some "k", none, none⟩ "q"
        (ModelOutcome.text "\x7b\"enhanced_query\":\"E\"\x7d") =
      { originalQuery := "q"
        enhancedQuery := jsOrV (getField (Json.obj [("enhanced_query", Json.str "E")]) "enhanced_query") (Json.str "q")
        keywords := jsOrV (getField (Json.obj [("enhanced_query", Json.str "E")]) "keywords") (Json.arr [])
        intent := jsOrV (getField (Json.obj [("enhanced_query", Json.str "E")]) "intent") (Json.str "search") } :=
  ⟨(brace_span_greedy "x\x7by\x7dz").1 "\x7by\x7d" (by rfl),
   (brace_span_greedy "\x7b\"enhanced_query\":\"E\"\x7d").2.1
     ⟨LLMProvider.google, some "k", none, none⟩ "q" (by rfl)
     "\x7b\"enhanced_query\":\"E\"\x7d" (by rfl)
     (Json.obj [("enhanced_query", Json.str "E")]) (by rfl)⟩

/- ===== C1: reRankResults is a permutation ===== -/

/-- The sequence of indices actually inserted into the used set by the
reordering loop: first occurrences of indices not already used. -/
def newIdx : List Int → List Nat → List Nat
  | [], _ => []
  | idx :: rest, used =>
      if idx.toNat ∈ used then newIdx rest used
      else idx.toNat :: newIdx rest (used ++ [idx.toNat])

theorem reorderLoop_eq (results : List SearchResult) :
    ∀ idxs : List Int, ∀ reordered : List SearchResult, ∀ used : List Nat,
      reorderLoop results idxs reordered used =
        (reordered ++ (newIdx idxs used).map (fun i => results.getD i default),
         used ++ newIdx idxs used) := by
  intro idxs
  induction idxs with
  | nil => intro reordered used; simp [reorderLoop, newIdx]
  | cons idx rest ih =>
      intro reordered used
      by_cases h : idx.toNat ∈ used
      · simp [reorderLoop, newIdx, h, ih]
      · simp only [reorderLoop, newIdx, if_neg h, ih, List.map_cons]
        refine congrArg₂ Prod.mk ?_ ?_ <;> simp

theorem newIdx_nodup_mem :
    ∀ idxs : List Int, ∀ used : List Nat, used.Nodup →
      (used ++ newIdx idxs used).Nodup ∧
      ∀ i : Nat, i ∈ used ++ newIdx idxs used ↔ i ∈ used ∨ ∃ j ∈ idxs, j.toNat = i := by
  intro idxs
  induction idxs with
  | nil =>
      intro used hnd
      refine ⟨by simpa [newIdx] using hnd, ?_⟩
      intro i
      simp [newIdx]
  | cons idx rest ih =>
      intro used hnd
      by_cases h : idx.toNat ∈ used
      · obtain ⟨hnod, hmem⟩ := ih used hnd
        refine ⟨by simpa [newIdx, h] using hnod, ?_⟩
        intro i
        rw [show used ++ newIdx (idx :: rest) used = used ++ newIdx rest used by
          simp [newIdx, h]]
        rw [hmem i]
        constructor
        · rintro (hi | ⟨j, hj, hji⟩)
          · exact Or.inl hi
          · exact Or.inr ⟨j, List.mem_cons_of_mem _ hj, hji⟩
        · rintro (hi | ⟨j, hj, hji⟩)
          · exact Or.inl hi
          · cases List.mem_cons.mp hj with
            | inl hje => subst hje; subst hji; exact Or.inl h
            | inr hjr => exact Or.inr ⟨j, hjr, hji⟩
      · have hnd' : (used ++ [idx.toNat]).Nodup := by
          rw [List.nodup_append]
          exact ⟨hnd, List.nodup_singleton _, by
            intro x hx hx1
            simp at hx1
            subst hx1
            exact h hx⟩
        obtain ⟨hnod, hmem⟩ := ih (used ++ [idx.toNat]) hnd'
        have hshape : used ++ newIdx (idx :: rest) used =
            (used ++ [idx.toNat]) ++ newIdx rest (used ++ [idx.toNat]) := by
          simp [newIdx, h, List.append_assoc]
        refine ⟨by rw [hshape]; exact hnod, ?_⟩
        intro i
        rw [hshape, hmem i]
        constructor
        · rintro (hi | ⟨j, hj, hji⟩)
          · cases List.mem_append.mp hi with
            | inl hu => exact Or.inl hu
            | inr hs =>
                simp at hs
                exact Or.inr ⟨idx, List.mem_cons_self _ _, hs.symm⟩
          · exact Or.inr ⟨j, List.mem_cons_of_mem _ hj, hji⟩
        · rintro (hi | ⟨j, hj, hji⟩)
          · exact Or.inl (List.mem_append.mpr (Or.inl hi))
          · cases List.mem_cons.mp hj with
            | inl hje =>
                subst hje
                exact Or.inl (List.mem_append.mpr (Or.inr (by simp [hji])))
            | inr hjr => exact Or.inr ⟨j, hjr, hji⟩

theorem map_getD_range (l : List SearchResult) :
    (List.range l.length).map (fun i => l.getD i default) = l := by
  induction l with
  | nil => rfl
  | cons a t ih =>
      have : List.range (a :: t).length = 0 :: (List.range t.length).map (· + 1) := by
        simpa using List.range_succ_eq_map t.length
      rw [this]
      simp only [List.map_cons, List.map_map]
      refine congrArg₂ List.cons rfl ?_
      calc (List.range t.length).map ((fun i => (a :: t).getD i default) ∘ (· + 1))
          = (List.range t.length).map (fun i => t.getD i default) := by
            apply List.map_congr_left
            intro i _
            rfl
        _ = t := ih

/-- Core of the permutation argument: for every raw index list, validation,
first-occurrence deduplication and the append of unused positions produce a
permutation of the input. -/
theorem reorder_core_perm (results : List SearchResult) (indices : List Int) :
    ((reorderLoop results
        (indices.filter (fun i => decide (0 ≤ i) && decide (i < (results.length : Int)))) [] []).1 ++
      appendRemaining results
        ((reorderLoop results
          (indices.filter (fun i => decide (0 ≤ i) && decide (i < (results.length : Int)))) [] []).2)).Perm
      results := by
  set validIndices := indices.filter
    (fun i => decide (0 ≤ i) && decide (i < (results.length : Int))) with hvi
  rw [reorderLoop_eq]
  simp only [List.nil_append]
  set U := newIdx validIndices [] with hU
  obtain ⟨hnod, hmem⟩ := newIdx_nodup_mem validIndices [] List.nodup_nil
  simp only [List.nil_append, ← hU] at hnod hmem
  have hmem' : ∀ i : Nat, i ∈ U ↔ ∃ j ∈ validIndices, j.toNat = i := by
    intro i
    simpa using hmem i
  have hUsub : ∀ i ∈ U, i < results.length := by
    intro i hi
    obtain ⟨j, hj, hji⟩ := (hmem' i).mp hi
    rw [hvi] at hj
    have := List.of_mem_filter hj
    simp at this
    omega
  have hsplit : U.map (fun i => results.getD i default) ++ appendRemaining results U =
      (U ++ (List.range results.length).filter (fun i => decide (i ∉ U))).map
        (fun i => results.getD i default) := by
    simp [appendRemaining, List.map_append]
  rw [hsplit]
  have hperm : (U ++ (List.range results.length).filter
      (fun i => decide (i ∉ U))).Perm (List.range results.length) := by
    rw [List.perm_ext_iff_of_nodup]
    · intro i
      constructor
      · intro hi
        cases List.mem_append.mp hi with
        | inl hu => exact List.mem_range.mpr (hUsub i hu)
        | inr hf => exact (List.mem_filter.mp hf).1
      · intro hi
        by_cases hu : i ∈ U
        · exact List.mem_append.mpr (Or.inl hu)
        · exact List.mem_append.mpr (Or.inr (List.mem_filter.mpr ⟨hi, by simpa using hu⟩))
    · refine List.Nodup.append hnod (List.Nodup.filter _ (List.nodup_range _)) ?_
      intro x hx hxf
      have := (List.mem_filter.mp hxf).2
      simp at this
      exact this hx
    · exact List.nodup_range _
  have h1 := hperm.map (fun i => results.getD i default)
  rw [map_getD_range results] at h1
  exact h1

/-- C1: for every input result list, every configuration and every model
response (a valid permutation, a subset, out-of-range indices, duplicated
indices, or unparsable text), reRankResults returns a permutation of the
exact input list: out-of-range indices are discarded, duplicates keep the
first occurrence, and positions never mentioned are appended in original
order, so no record is ever dropped or duplicated. -/
theorem reRank_perm (cfg : AIConfig) (results : List SearchResult)
    (query : String) (outcome : ModelOutcome) :
    (AIService.reRankResults cfg results query outcome).Perm results := by
  unfold AIService.reRankResults
  split
  · exact List.Perm.refl _
  · split
    · exact List.Perm.refl _
    · split
      · exact List.Perm.refl _
      · split
        · exact List.Perm.refl _
        · dsimp only
          split
          · exact List.Perm.refl _
          · exact reorder_core_perm results _
